import Mathlib

/-!
Verification of the geometric projection pipeline of a software 3D-to-2D
wireframe renderer.  The scene entities (Vertex, Edge, HalfLine, Face, Light)
and the Camera live in the repository's `shape.js` and `main.js`; the
underlying vector/point/plane algebra lives in a `math.js` module whose
primitives are modelled here from the specification (section 4.1).
Floating-point numbers are modelled as real numbers.
-/

noncomputable section

/-- Modelled from the spec: `Point (x,y,z)`, a position in world space
(`math.js` is not part of the reviewed sources). -/
structure Point where
  x : ℝ
  y : ℝ
  z : ℝ

/-- Modelled from the spec: `Vector (x,y,z)`, a free direction + magnitude. -/
structure Vector where
  x : ℝ
  y : ℝ
  z : ℝ

/-- Modelled from the spec: translating a point by a vector (`Point.move`). -/
def Point.move (p : Point) (v : Vector) : Point :=
  ⟨p.x + v.x, p.y + v.y, p.z + v.z⟩

/-- Modelled from the spec: `getVectorFrom2Points`, the vector from `p1` to `p2`. -/
def getVectorFrom2Points (p1 p2 : Point) : Vector :=
  ⟨p2.x - p1.x, p2.y - p1.y, p2.z - p1.z⟩

/-- Modelled from the spec: Euclidean length of a vector. -/
def Vector.length (v : Vector) : ℝ :=
  Real.sqrt (v.x ^ 2 + v.y ^ 2 + v.z ^ 2)

/-- Modelled from the spec: `changeLength` scales a vector to a given signed
length while preserving its direction. -/
def Vector.changeLength (v : Vector) (l : ℝ) : Vector :=
  ⟨v.x * (l / v.length), v.y * (l / v.length), v.z * (l / v.length)⟩

/-- Modelled from the spec: degree-based sine (degrees are the external unit,
converted to radians internally). -/
def sinD (t : ℝ) : ℝ := Real.sin (t * (Real.pi / 180))

/-- Modelled from the spec: degree-based cosine. -/
def cosD (t : ℝ) : ℝ := Real.cos (t * (Real.pi / 180))

/-- Modelled from the spec: `Vector.rotate rx rz` first rotates the X/Y
components by `rz`, then the resulting Y/Z components by `rx`. -/
def Vector.rotate (v : Vector) (rx rz : ℝ) : Vector :=
  let x1 := cosD rz * v.x - sinD rz * v.y
  let y1 := sinD rz * v.x + cosD rz * v.y
  let y2 := cosD rx * y1 - sinD rx * v.z
  let z2 := sinD rx * y1 + cosD rx * v.z
  ⟨x1, y2, z2⟩

/-- Modelled from the spec: `getCrossProduct`. -/
def getCrossProduct (a b : Vector) : Vector :=
  ⟨a.y * b.z - a.z * b.y, a.z * b.x - a.x * b.z, a.x * b.y - a.y * b.x⟩

/-- Modelled from the spec: `getLengthFrom2Points`, Euclidean distance. -/
def getLengthFrom2Points (p q : Point) : ℝ :=
  Real.sqrt ((q.x - p.x) ^ 2 + (q.y - p.y) ^ 2 + (q.z - p.z) ^ 2)

/-- Modelled from the spec: a line is a point plus a direction vector. -/
structure Line where
  point : Point
  vector : Vector

/-- Modelled from the spec: a plane `a x + b y + c z + d = 0`. -/
structure Plane where
  a : ℝ
  b : ℝ
  c : ℝ
  d : ℝ

/-- The value of the plane's defining form at a point (sign classifies sides). -/
def Plane.valueAt (pl : Plane) (p : Point) : ℝ :=
  pl.a * p.x + pl.b * p.y + pl.c * p.z + pl.d

/-- Modelled from the spec: `getPlaneFromVectorAndPoint`, the plane through
`p` with normal `n`; `d = -(a xp + b yp + c zp)`. -/
def getPlaneFromVectorAndPoint (n : Vector) (p : Point) : Plane :=
  ⟨n.x, n.y, n.z, -(n.x * p.x + n.y * p.y + n.z * p.z)⟩

/-- Modelled from the spec: a point is in front of a plane when the plane form
has the sign obtained along the positive normal direction. -/
def Plane.isPointInFrontOf (pl : Plane) (p : Point) : Prop :=
  0 < pl.valueAt p

instance (pl : Plane) (p : Point) : Decidable (pl.isPointInFrontOf p) :=
  inferInstanceAs (Decidable (0 < pl.valueAt p))

/-- Modelled from the spec: `getIntersectionFromLineAndPlane` solves for `t`
with `line.point + t * line.vector` on the plane; a parallel line
(denominator 0) yields the no-intersection signal `none`. -/
def getIntersectionFromLineAndPlane (l : Line) (pl : Plane) : Option Point :=
  let denom := pl.a * l.vector.x + pl.b * l.vector.y + pl.c * l.vector.z
  if denom = 0 then none
  else
    let t := -(pl.valueAt l.point) / denom
    some ⟨l.point.x + t * l.vector.x, l.point.y + t * l.vector.y,
      l.point.z + t * l.vector.z⟩

/-- Modelled from the spec: `Math.sign` of a real number. -/
def sign (x : ℝ) : ℝ :=
  if 0 < x then 1 else if x < 0 then -1 else 0

/-- Modelled from the spec: `getSTFrom3Vectors` solves `p = s v1 + t v2` for
the barycentric-style coefficients `(s, t)` by a 2-by-2 linear solve; the
system is taken on the x and y components (Cramer formulas). -/
def getSTFrom3Vectors (p v1 v2 : Vector) : ℝ × ℝ :=
  let det := v1.x * v2.y - v2.x * v1.y
  ((p.x * v2.y - v2.x * p.y) / det, (v1.x * p.y - p.x * v1.y) / det)

/-- The `Vertex` class of `shape.js`: coordinates, an identity index `i`, and
an embedded `Point` built from the coordinates. -/
structure Vertex where
  x : ℝ
  y : ℝ
  z : ℝ
  i : ℤ
  point : Point

/-- The `Vertex` constructor: `this.point = new Point(x, y, z)`. -/
def Vertex.make (x y z : ℝ) (i : ℤ) : Vertex :=
  ⟨x, y, z, i, ⟨x, y, z⟩⟩

/-- `Vertex.getClone`: a fresh vertex from the scalar fields and identity. -/
def Vertex.getClone (v : Vertex) : Vertex :=
  Vertex.make v.x v.y v.z v.i

/-- `Vertex.move`: adds the vector to the scalar fields and to the embedded
point, then returns `this.getClone()`.  The first component is the mutated
receiver, the second the returned clone. -/
def Vertex.move (v : Vertex) (vec : Vector) : Vertex × Vertex :=
  let mutated : Vertex :=
    { x := v.x + vec.x, y := v.y + vec.y, z := v.z + vec.z, i := v.i,
      point := v.point.move vec }
  (mutated, mutated.getClone)

/-- The invariant that a vertex's scalar fields agree with its embedded point. -/
def Vertex.consistent (v : Vertex) : Prop :=
  v.point.x = v.x ∧ v.point.y = v.y ∧ v.point.z = v.z

/-- The `Edge` class of `shape.js`: two vertices plus the derived direction
vector and line, stored at construction time. -/
structure Edge where
  vertex1 : Vertex
  vertex2 : Vertex
  vector : Vector
  line : Line

/-- The `Edge` constructor: derives `vector = getVectorFrom2Points(v1.point,
v2.point)` and `line = new Line(v1.point, vector)`. -/
def Edge.make (v1 v2 : Vertex) : Edge :=
  let vec := getVectorFrom2Points v1.point v2.point
  ⟨v1, v2, vec, ⟨v1.point, vec⟩⟩

/-- `Edge.getClone`: a new edge from clones of the two vertices. -/
def Edge.getClone (e : Edge) : Edge :=
  Edge.make e.vertex1.getClone e.vertex2.getClone

/-- `Edge.isPointInRange`: the point lies in the per-axis bounding box of the
two endpoints (scalar fields). -/
def Edge.isPointInRange (e : Edge) (p : Point) : Prop :=
  min e.vertex1.x e.vertex2.x ≤ p.x ∧ p.x ≤ max e.vertex1.x e.vertex2.x ∧
  min e.vertex1.y e.vertex2.y ≤ p.y ∧ p.y ≤ max e.vertex1.y e.vertex2.y ∧
  min e.vertex1.z e.vertex2.z ≤ p.z ∧ p.z ≤ max e.vertex1.z e.vertex2.z

instance (e : Edge) (p : Point) : Decidable (e.isPointInRange p) :=
  inferInstanceAs (Decidable (_ ∧ _ ∧ _ ∧ _ ∧ _ ∧ _))

/-- `Edge.getIntersectionWithPlane`: the line-plane intersection, kept only
when it passes the bounding-box range test. -/
def Edge.getIntersectionWithPlane (e : Edge) (pl : Plane) : Option Point :=
  match getIntersectionFromLineAndPlane e.line pl with
  | none => none
  | some inter => if e.isPointInRange inter then some inter else none

/-- `Edge.setVertexInFrontOfCamera`: when the edge crosses the plane, the
behind-plane endpoint is replaced by the intersection point nudged by `1e-4`
along the edge direction; the receiver's `vertex1`/`vertex2` fields are
reassigned but its stored `vector` and `line` are not re-derived.  The first
component is the mutated receiver, the second the returned `new Edge(...)`. -/
def Edge.setVertexInFrontOfCamera (e : Edge) (pl : Plane) : Edge × Edge :=
  match e.getIntersectionWithPlane pl with
  | none => (e, Edge.make e.vertex1 e.vertex2)
  | some inter =>
    if pl.isPointInFrontOf e.vertex1.point then
      let fixVector := e.vector.changeLength (-0.0001)
      let moved := inter.move fixVector
      let v2 := Vertex.make moved.x moved.y moved.z e.vertex2.i
      ({ e with vertex2 := v2 }, Edge.make e.vertex1 v2)
    else
      let fixVector := e.vector.changeLength 0.0001
      let moved := inter.move fixVector
      let v1 := Vertex.make moved.x moved.y moved.z e.vertex1.i
      ({ e with vertex1 := v1 }, Edge.make v1 e.vertex2)

/-- The `HalfLine` class of `shape.js`: an endpoint, a direction vector, and
the derived line. -/
structure HalfLine where
  point : Point
  vector : Vector
  line : Line

/-- The `HalfLine` constructor. -/
def HalfLine.make (p : Point) (v : Vector) : HalfLine :=
  ⟨p, v, ⟨p, v⟩⟩

/-- `HalfLine.isPointInRange`: per-axis sign match between the direction
vector and the displacement from the endpoint. -/
def HalfLine.isPointInRange (h : HalfLine) (p : Point) : Prop :=
  sign h.vector.x = sign (p.x - h.point.x) ∧
  sign h.vector.y = sign (p.y - h.point.y) ∧
  sign h.vector.z = sign (p.z - h.point.z)

instance (h : HalfLine) (p : Point) : Decidable (h.isPointInRange p) :=
  inferInstanceAs (Decidable (_ ∧ _ ∧ _))

/-- `HalfLine.getIntersectionWithPlane`: the line-plane intersection, kept
only when it passes the half-line range test. -/
def HalfLine.getIntersectionWithPlane (h : HalfLine) (pl : Plane) : Option Point :=
  match getIntersectionFromLineAndPlane h.line pl with
  | none => none
  | some inter => if h.isPointInRange inter then some inter else none

/-- Modelled from the spec: the `isOnIntersectionWithPlane` method invoked by
`main.js` on half-lines; it is the half-line/plane intersection query of
`shape.js` (intersection kept only when in range). -/
def HalfLine.isOnIntersectionWithPlane (h : HalfLine) (pl : Plane) : Option Point :=
  h.getIntersectionWithPlane pl

/-- The `Face` class of `shape.js` (geometric fields): three vertices, the two
derived edge vectors, the derived normal and the containing plane. -/
structure Face where
  vertex1 : Vertex
  vertex2 : Vertex
  vertex3 : Vertex
  vector1 : Vector
  vector2 : Vector
  normalVector : Vector
  plane : Plane

/-- The `Face` constructor: derives the two edge vectors, their cross product
as the normal, and the plane through `vertex1`. -/
def Face.make (v1 v2 v3 : Vertex) : Face :=
  let vec1 := getVectorFrom2Points v1.point v2.point
  let vec2 := getVectorFrom2Points v1.point v3.point
  let n := getCrossProduct vec1 vec2
  ⟨v1, v2, v3, vec1, vec2, n, getPlaneFromVectorAndPoint n v1.point⟩

/-- `Face.isPointOnFace`: the barycentric-style containment test `s >= 0`,
`t >= 0`, `s + t <= 1` on the coefficients from `getSTFrom3Vectors`. -/
def Face.isPointOnFace (f : Face) (p : Point) : Prop :=
  let st := getSTFrom3Vectors (getVectorFrom2Points f.vertex1.point p) f.vector1 f.vector2
  0 ≤ st.1 ∧ 0 ≤ st.2 ∧ st.1 + st.2 ≤ 1

instance (f : Face) (p : Point) : Decidable (f.isPointOnFace p) :=
  inferInstanceAs (Decidable (_ ∧ _ ∧ _))

/-- The `Edge | HalfLine` union dispatched on by `instanceof` in `shape.js`,
represented as a tagged variant. -/
inductive EdgeOrHalfLine where
  | edge (e : Edge)
  | halfLine (h : HalfLine)

/-- The `getIntersectionWithPlane` dispatch on the ray kind. -/
def EdgeOrHalfLine.getIntersectionWithPlane : EdgeOrHalfLine → Plane → Option Point
  | .edge e, pl => e.getIntersectionWithPlane pl
  | .halfLine h, pl => h.getIntersectionWithPlane pl

/-- The ray origin used for distances: `vertex1.point` for an edge,
`point` for a half-line. -/
def EdgeOrHalfLine.origin : EdgeOrHalfLine → Point
  | .edge e => e.vertex1.point
  | .halfLine h => h.point

/-- `getIntersectionEdgeOrHalfLineAndFace`: the ray/plane intersection,
accepted only when it lies on the face. -/
def getIntersectionEdgeOrHalfLineAndFace (r : EdgeOrHalfLine) (f : Face) : Option Point :=
  match r.getIntersectionWithPlane f.plane with
  | none => none
  | some inter => if f.isPointOnFace inter then some inter else none

/-- One accepted `{face, intersection, length}` record of the face-list query. -/
structure Hit where
  face : Face
  intersection : Point
  length : ℝ

/-- One step of the ascending stable insertion modelling
`Array.prototype.sort((a, b) => a.length - b.length)`: a later element is
placed after all earlier elements with a key less than or equal to its own. -/
def insertHit (x : Hit) : List Hit → List Hit
  | [] => [x]
  | y :: ys => if y.length ≤ x.length then y :: insertHit x ys else x :: y :: ys

/-- The ascending stable sort of the hit list by `length`. -/
def sortHits (l : List Hit) : List Hit :=
  l.foldl (fun acc x => insertHit x acc) []

/-- `getIntersectionsEdgeOrHalfLineAndFaces`: collect the accepted
`{face, intersection, length}` records in face-list order, then sort them
ascending by distance from the ray origin. -/
def getIntersectionsEdgeOrHalfLineAndFaces (r : EdgeOrHalfLine) (faces : List Face) :
    List Hit :=
  sortHits (faces.filterMap fun f =>
    (getIntersectionEdgeOrHalfLineAndFace r f).map fun inter =>
      ⟨f, inter, getLengthFrom2Points r.origin inter⟩)

/-- The `Camera` class of `main.js` (the configuration fields used by the
projection pipeline). -/
structure Camera where
  pos : Point
  rx : ℝ
  rz : ℝ
  focalLength : ℝ
  width : ℝ
  height : ℝ
  canW : ℝ
  canH : ℝ
  expandingRatio : ℝ

/-- `Camera.updateNormalVector`: `new Vector(0, focalLength, 0).rotate(rx, rz)`. -/
def Camera.normalVector (c : Camera) : Vector :=
  (Vector.mk 0 c.focalLength 0).rotate c.rx c.rz

/-- `Camera.updateFocusPoint`: `pos - normalVector`. -/
def Camera.focus (c : Camera) : Point :=
  ⟨c.pos.x - c.normalVector.x, c.pos.y - c.normalVector.y, c.pos.z - c.normalVector.z⟩

/-- `Camera.updatePlane`: the view plane through `pos` with normal
`normalVector`. -/
def Camera.plane (c : Camera) : Plane :=
  getPlaneFromVectorAndPoint c.normalVector c.pos

/-- `Camera.getProjectedVertex`: `null` when the vertex is not in front of the
view plane; otherwise the intersection of the focus-to-vertex half-line with
the view plane, carrying the vertex's identity. -/
def Camera.getProjectedVertex (c : Camera) (v : Vertex) : Option Vertex :=
  if c.plane.isPointInFrontOf v.point then
    let rayVector := getVectorFrom2Points c.focus v.point
    let rayHalfLine := HalfLine.make c.focus rayVector
    (rayHalfLine.isOnIntersectionWithPlane c.plane).map fun inter =>
      Vertex.make inter.x inter.y inter.z v.i
  else none

/-- `Camera.getConvertedVertex`: translate by `-pos`, rotate by `rz` then by
`-rx`, translate back by `+pos`. -/
def Camera.getConvertedVertex (c : Camera) (v : Vertex) : Vertex :=
  let vec := getVectorFrom2Points c.pos v.point
  let sinRZ := sinD c.rz
  let cosRZ := cosD c.rz
  let sinRX := sinD (-c.rx)
  let cosRX := cosD (-c.rx)
  let x1 := cosRZ * vec.x - sinRZ * vec.y
  let y1 := sinRZ * vec.x + cosRZ * vec.y
  let z1 := vec.z
  let y2 := cosRX * y1 - sinRX * z1
  let z2 := sinRX * y1 + cosRX * z1
  Vertex.make (x1 + c.pos.x) (y2 + c.pos.y) (z2 + c.pos.z) v.i

/-- `Camera.getToDrawVertex`: `null` when the projection is `null`; otherwise
the raster coordinates of the converted projected vertex. -/
def Camera.getToDrawVertex (c : Camera) (v : Vertex) : Option (ℝ × ℝ) :=
  match c.getProjectedVertex v with
  | none => none
  | some projected =>
    let converted := c.getConvertedVertex projected
    some ((converted.x - c.pos.x) * c.expandingRatio + c.canW / 2,
      (converted.z - c.pos.z) * -c.expandingRatio + c.canH / 2)

/-- The outcome of one iteration of the `drawEdges` loop body: the edge is
skipped, a segment is drawn, or a member access on a `null` draw vertex
fails. -/
inductive DrawEdgeResult where
  | skipped
  | crashed
  | drew (x1 y1 x2 y2 : ℝ)

/-- One iteration of `Camera.drawEdges`: clip a clone of the edge, project
both endpoints, skip when both draw vertices are `null`, otherwise read
`.x`/`.y` of both (which fails when exactly one is `null`). -/
def Camera.drawEdgeStep (c : Camera) (e : Edge) : DrawEdgeResult :=
  let convertedEdge := (e.getClone.setVertexInFrontOfCamera c.plane).2
  match c.getToDrawVertex convertedEdge.vertex1, c.getToDrawVertex convertedEdge.vertex2 with
  | none, none => DrawEdgeResult.skipped
  | some p1, some p2 => DrawEdgeResult.drew p1.1 p1.2 p2.1 p2.2
  | none, some _ => DrawEdgeResult.crashed
  | some _, none => DrawEdgeResult.crashed

/-- The observable contents of a `Vertex` object in the object store
(coordinates and identity index; the embedded point carries the same
coordinates). -/
structure VObj where
  x : ℝ
  y : ℝ
  z : ℝ
  i : ℤ

/-- The observable contents of an `Edge` object in the object store: the ids
of the two vertex objects it currently references plus its stored direction
vector. -/
structure EObj where
  v1 : Nat
  v2 : Nat
  vector : Vector

/-- An object store for the scene graph: vertex objects and edge objects
addressed by allocation index, so that aliasing and in-place mutation of the
JavaScript object graph are observable. -/
structure Store where
  verts : List VObj
  edges : List EObj

/-- The default vertex object used for out-of-range reads. -/
def dVObj : VObj := ⟨0, 0, 0, 0⟩

/-- The default edge object used for out-of-range reads. -/
def dEObj : EObj := ⟨0, 0, ⟨0, 0, 0⟩⟩

/-- `vertex.getClone()` at store level: allocate a fresh vertex object with
the same coordinates and identity; returns the new id. -/
def cloneVertexS (s : Store) (vid : Nat) : Store × Nat :=
  ({ s with verts := s.verts ++ [s.verts.getD vid dVObj] }, s.verts.length)

/-- `edge.getClone()` at store level: clone both vertex objects, then
allocate a fresh edge object referencing the clones, re-deriving the
direction vector from their coordinates (the `Edge` constructor). -/
def cloneEdgeS (s : Store) (eid : Nat) : Store × Nat :=
  let eo := s.edges.getD eid dEObj
  let v1o := s.verts.getD eo.v1 dVObj
  let v2o := s.verts.getD eo.v2 dVObj
  let (s1, n1) := cloneVertexS s eo.v1
  let (s2, n2) := cloneVertexS s1 eo.v2
  let vec := getVectorFrom2Points ⟨v1o.x, v1o.y, v1o.z⟩ ⟨v2o.x, v2o.y, v2o.z⟩
  ({ s2 with edges := s2.edges ++ [⟨n1, n2, vec⟩] }, s2.edges.length)

/-- The vertex half of `Camera.importShapes`: clone every canonical vertex. -/
def cloneVertsS : Store → List Nat → Store
  | s, [] => s
  | s, v :: rest => cloneVertsS (cloneVertexS s v).1 rest

/-- The edge half of `Camera.importShapes`: clone every canonical edge,
returning the ids of the imported clones. -/
def cloneEdgesS : Store → List Nat → Store × List Nat
  | s, [] => (s, [])
  | s, e :: rest =>
    let (s1, n) := cloneEdgeS s e
    let (s2, ns) := cloneEdgesS s1 rest
    (s2, n :: ns)

/-- `edge.setVertexInFrontOfCamera(plane)` invoked on the stored edge object
`eid`: when the clip fires, a fresh vertex object holding the nudged
intersection is allocated and the edge object's endpoint reference is
reassigned in place (its stored vector is not re-derived). -/
def mutateEdgeS (pl : Plane) (s : Store) (eid : Nat) : Store :=
  let eo := s.edges.getD eid dEObj
  let v1o := s.verts.getD eo.v1 dVObj
  let v2o := s.verts.getD eo.v2 dVObj
  let v1 : Vertex := ⟨v1o.x, v1o.y, v1o.z, v1o.i, ⟨v1o.x, v1o.y, v1o.z⟩⟩
  let v2 : Vertex := ⟨v2o.x, v2o.y, v2o.z, v2o.i, ⟨v2o.x, v2o.y, v2o.z⟩⟩
  let e : Edge := ⟨v1, v2, eo.vector, ⟨v1.point, eo.vector⟩⟩
  match e.getIntersectionWithPlane pl with
  | none => s
  | some inter =>
    if pl.isPointInFrontOf v1.point then
      let moved := inter.move (eo.vector.changeLength (-0.0001))
      { verts := s.verts ++ [⟨moved.x, moved.y, moved.z, v2o.i⟩],
        edges := s.edges.set eid { eo with v2 := s.verts.length } }
    else
      let moved := inter.move (eo.vector.changeLength 0.0001)
      { verts := s.verts ++ [⟨moved.x, moved.y, moved.z, v1o.i⟩],
        edges := s.edges.set eid { eo with v1 := s.verts.length } }

/-- One `update`/`draw` cycle at store level: import (clone) the canonical
vertices and edges, then run the in-place clip on every imported edge. -/
def frameS (pl : Plane) (vids eids : List Nat) (s : Store) : Store :=
  let s1 := cloneVertsS s vids
  let (s2, imported) := cloneEdgesS s1 eids
  imported.foldl (mutateEdgeS pl) s2

/-- Store `s1` extends store `s0`: it is at least as long and agrees with it
on every object id allocated in `s0`. -/
def StoreExt (s0 s1 : Store) : Prop :=
  s0.verts.length ≤ s1.verts.length ∧ s0.edges.length ≤ s1.edges.length ∧
  (∀ j, j < s0.verts.length → s1.verts[j]? = s0.verts[j]?) ∧
  (∀ j, j < s0.edges.length → s1.edges[j]? = s0.edges[j]?)

lemma sinD_zero : sinD 0 = 0 := by simp [sinD]

lemma cosD_zero : cosD 0 = 1 := by simp [cosD]

lemma Vector.rotate_zero (v : Vector) : v.rotate 0 0 = v := by
  simp [Vector.rotate, sinD, cosD]

lemma Plane.valueAt_move (pl : Plane) (p : Point) (w : Vector) :
    pl.valueAt (p.move w) = pl.valueAt p + (pl.a * w.x + pl.b * w.y + pl.c * w.z) := by
  simp [Plane.valueAt, Point.move]; ring

lemma getIntersectionFromLineAndPlane_eq_some {l : Line} {pl : Plane} {i : Point}
    (h : getIntersectionFromLineAndPlane l pl = some i) :
    pl.a * l.vector.x + pl.b * l.vector.y + pl.c * l.vector.z ≠ 0 ∧
    i = ⟨l.point.x + (-(pl.valueAt l.point) /
        (pl.a * l.vector.x + pl.b * l.vector.y + pl.c * l.vector.z)) * l.vector.x,
      l.point.y + (-(pl.valueAt l.point) /
        (pl.a * l.vector.x + pl.b * l.vector.y + pl.c * l.vector.z)) * l.vector.y,
      l.point.z + (-(pl.valueAt l.point) /
        (pl.a * l.vector.x + pl.b * l.vector.y + pl.c * l.vector.z)) * l.vector.z⟩ := by
  by_cases hd : pl.a * l.vector.x + pl.b * l.vector.y + pl.c * l.vector.z = 0
  · simp [getIntersectionFromLineAndPlane, hd] at h
  · refine ⟨hd, ?_⟩
    simp only [getIntersectionFromLineAndPlane, hd, if_false] at h
    exact (Option.some.inj h).symm

lemma valueAt_intersection_eq_zero {l : Line} {pl : Plane} {i : Point}
    (h : getIntersectionFromLineAndPlane l pl = some i) : pl.valueAt i = 0 := by
  obtain ⟨hd, hi⟩ := getIntersectionFromLineAndPlane_eq_some h
  subst hi
  simp only [Plane.valueAt] at *
  field_simp
  ring

lemma Vector.length_pos {v : Vector} (h : v.x ≠ 0 ∨ v.y ≠ 0 ∨ v.z ≠ 0) :
    0 < v.length := by
  apply Real.sqrt_pos.mpr
  rcases h with h | h | h
  · have h2 : 0 < v.x ^ 2 := lt_of_le_of_ne (sq_nonneg _) (Ne.symm (pow_ne_zero 2 h))
    nlinarith [sq_nonneg v.y, sq_nonneg v.z]
  · have h2 : 0 < v.y ^ 2 := lt_of_le_of_ne (sq_nonneg _) (Ne.symm (pow_ne_zero 2 h))
    nlinarith [sq_nonneg v.x, sq_nonneg v.z]
  · have h2 : 0 < v.z ^ 2 := lt_of_le_of_ne (sq_nonneg _) (Ne.symm (pow_ne_zero 2 h))
    nlinarith [sq_nonneg v.x, sq_nonneg v.y]

/-- Claim C10: every vertex keeps its scalar fields equal to its embedded
point's coordinates: the constructor establishes the invariant, `getClone`
produces a fresh vertex with equal coordinates and the same identity
satisfying it, and `move` adds the vector to both the scalar fields and the
embedded point (preserving the identity) and returns a clone equal to the
mutated vertex. -/
theorem c10_vertex_point_consistency :
    (∀ (x y z : ℝ) (i : ℤ), (Vertex.make x y z i).consistent) ∧
    (∀ v : Vertex, v.getClone.consistent ∧ v.getClone.x = v.x ∧ v.getClone.y = v.y ∧
      v.getClone.z = v.z ∧ v.getClone.i = v.i) ∧
    (∀ (v : Vertex) (vec : Vector), v.consistent →
      (v.move vec).1.consistent ∧ (v.move vec).1.x = v.x + vec.x ∧
      (v.move vec).1.y = v.y + vec.y ∧ (v.move vec).1.z = v.z + vec.z ∧
      (v.move vec).1.i = v.i ∧ (v.move vec).2 = (v.move vec).1) := by
  refine ⟨?_, ?_, ?_⟩
  · intro x y z i
    simp [Vertex.make, Vertex.consistent]
  · intro v
    simp [Vertex.getClone, Vertex.make, Vertex.consistent]
  · intro v vec hv
    obtain ⟨hx, hy, hz⟩ := hv
    refine ⟨⟨?_, ?_, ?_⟩, rfl, rfl, rfl, rfl, ?_⟩
    · simp [Vertex.move, Point.move, hx]
    · simp [Vertex.move, Point.move, hy]
    · simp [Vertex.move, Point.move, hz]
    · simp only [Vertex.move, Vertex.getClone, Vertex.make, Point.move]
      congr 1
      simp [hx, hy, hz]

/-- Witness for C10 at a concrete vertex and displacement vector. -/
theorem c10_vertex_point_consistency_witness :
    (Vertex.make 1 2 3 4).consistent ∧
    ((Vertex.make 1 2 3 4).move ⟨5, 6, 7⟩).2 = ((Vertex.make 1 2 3 4).move ⟨5, 6, 7⟩).1 := by
  constructor
  · simp [Vertex.make, Vertex.consistent]
  · exact (c10_vertex_point_consistency.2.2 (Vertex.make 1 2 3 4) ⟨5, 6, 7⟩
      (by simp [Vertex.make, Vertex.consistent])).2.2.2.2.2

/-- Claim C3: a vertex not in front of the camera's view plane yields a null
projection from `Camera.getProjectedVertex`, and consequently a null result
from `Camera.getToDrawVertex`. -/
theorem c3_behind_vertex_yields_null (c : Camera) (v : Vertex)
    (h : ¬ c.plane.isPointInFrontOf v.point) :
    c.getProjectedVertex v = none ∧ c.getToDrawVertex v = none := by
  have hp : c.getProjectedVertex v = none := by
    simp [Camera.getProjectedVertex, h]
  exact ⟨hp, by simp [Camera.getToDrawVertex, hp]⟩

/-- Witness for C3: a camera looking along positive y from the origin and a
vertex strictly behind its view plane. -/
theorem c3_behind_vertex_yields_null_witness :
    ¬ (Camera.mk ⟨0, 0, 0⟩ 0 0 1 2 2 2 2 1).plane.isPointInFrontOf
        (Vertex.make 0 (-5) 0 0).point ∧
    (Camera.mk ⟨0, 0, 0⟩ 0 0 1 2 2 2 2 1).getProjectedVertex (Vertex.make 0 (-5) 0 0) = none ∧
    (Camera.mk ⟨0, 0, 0⟩ 0 0 1 2 2 2 2 1).getToDrawVertex (Vertex.make 0 (-5) 0 0) = none := by
  have h : ¬ (Camera.mk ⟨0, 0, 0⟩ 0 0 1 2 2 2 2 1).plane.isPointInFrontOf
      (Vertex.make 0 (-5) 0 0).point := by
    simp [Camera.plane, Camera.normalVector, Vector.rotate_zero,
      getPlaneFromVectorAndPoint, Plane.isPointInFrontOf, Plane.valueAt, Vertex.make]
  exact ⟨h, c3_behind_vertex_yields_null _ _ h⟩

lemma Edge.getIntersectionWithPlane_some {e : Edge} {pl : Plane} {i : Point}
    (h : e.getIntersectionWithPlane pl = some i) :
    getIntersectionFromLineAndPlane e.line pl = some i ∧ e.isPointInRange i := by
  rcases hg : getIntersectionFromLineAndPlane e.line pl with _ | j
  · simp [Edge.getIntersectionWithPlane, hg] at h
  · simp only [Edge.getIntersectionWithPlane, hg] at h
    by_cases hr : e.isPointInRange j
    · rw [if_pos hr] at h
      obtain rfl := Option.some.inj h
      exact ⟨rfl, hr⟩
    · rw [if_neg hr] at h
      exact absurd h (by simp)

/-- Claim C4 counterexample: an edge straddling the plane `y = 0`, clipped in
place; the receiver's stored direction vector is the pre-clip one and differs
from `vertex2 - vertex1` after the endpoint replacement. -/
theorem c4_receiver_stale_vector_counterexample :
    ((Edge.make (Vertex.make 0 1 0 0) (Vertex.make 0 (-3) 0 1)).setVertexInFrontOfCamera
        ⟨0, 1, 0, 0⟩).1.vector.y = -4 ∧
    (getVectorFrom2Points
      ((Edge.make (Vertex.make 0 1 0 0) (Vertex.make 0 (-3) 0 1)).setVertexInFrontOfCamera
        ⟨0, 1, 0, 0⟩).1.vertex1.point
      ((Edge.make (Vertex.make 0 1 0 0) (Vertex.make 0 (-3) 0 1)).setVertexInFrontOfCamera
        ⟨0, 1, 0, 0⟩).1.vertex2.point).y = -(0.9999) ∧
    ((Edge.make (Vertex.make 0 1 0 0) (Vertex.make 0 (-3) 0 1)).setVertexInFrontOfCamera
        ⟨0, 1, 0, 0⟩).1.vector ≠
      getVectorFrom2Points
        ((Edge.make (Vertex.make 0 1 0 0) (Vertex.make 0 (-3) 0 1)).setVertexInFrontOfCamera
          ⟨0, 1, 0, 0⟩).1.vertex1.point
        ((Edge.make (Vertex.make 0 1 0 0) (Vertex.make 0 (-3) 0 1)).setVertexInFrontOfCamera
          ⟨0, 1, 0, 0⟩).1.vertex2.point := by
  have h16 : Real.sqrt 16 = 4 := by
    rw [show (16 : ℝ) = 4 ^ 2 by norm_num]
    exact Real.sqrt_sq (by norm_num)
  have hy1 : ((Edge.make (Vertex.make 0 1 0 0) (Vertex.make 0 (-3) 0 1)).setVertexInFrontOfCamera
      ⟨0, 1, 0, 0⟩).1.vector.y = -4 := by
    simp only [Edge.make, Edge.setVertexInFrontOfCamera, Edge.getIntersectionWithPlane,
      getIntersectionFromLineAndPlane, getVectorFrom2Points, Plane.valueAt,
      Edge.isPointInRange, Plane.isPointInFrontOf, Vertex.make, Point.move,
      Vector.changeLength, Vector.length]
    norm_num [h16, min_def, max_def]
  have hy2 : (getVectorFrom2Points
      ((Edge.make (Vertex.make 0 1 0 0) (Vertex.make 0 (-3) 0 1)).setVertexInFrontOfCamera
        ⟨0, 1, 0, 0⟩).1.vertex1.point
      ((Edge.make (Vertex.make 0 1 0 0) (Vertex.make 0 (-3) 0 1)).setVertexInFrontOfCamera
        ⟨0, 1, 0, 0⟩).1.vertex2.point).y = -(0.9999) := by
    simp only [Edge.make, Edge.setVertexInFrontOfCamera, Edge.getIntersectionWithPlane,
      getIntersectionFromLineAndPlane, getVectorFrom2Points, Plane.valueAt,
      Edge.isPointInRange, Plane.isPointInFrontOf, Vertex.make, Point.move,
      Vector.changeLength, Vector.length]
    norm_num [h16, min_def, max_def]
  refine ⟨hy1, hy2, fun hEq => ?_⟩
  have : (-4 : ℝ) = -(0.9999) := by rw [← hy1, ← hy2, hEq]
  norm_num at this

/-- Claim C4 (amended): an edge's stored direction vector equals
`vertex2 - vertex1` after construction, after cloning, and on the new edge
returned by `setVertexInFrontOfCamera`; the mutated receiver instead keeps
its pre-call vector, which is stale when an endpoint was replaced. -/
theorem c4_vector_invariant_amended :
    (∀ v1 v2 : Vertex, (Edge.make v1 v2).vector = getVectorFrom2Points v1.point v2.point) ∧
    (∀ e : Edge, e.getClone.vector =
      getVectorFrom2Points e.getClone.vertex1.point e.getClone.vertex2.point) ∧
    (∀ (e : Edge) (pl : Plane),
      (e.setVertexInFrontOfCamera pl).2.vector =
        getVectorFrom2Points (e.setVertexInFrontOfCamera pl).2.vertex1.point
          (e.setVertexInFrontOfCamera pl).2.vertex2.point ∧
      (e.setVertexInFrontOfCamera pl).1.vector = e.vector) := by
  refine ⟨fun v1 v2 => rfl, fun e => rfl, fun e pl => ?_⟩
  rcases hg : e.getIntersectionWithPlane pl with _ | j
  · simp [Edge.setVertexInFrontOfCamera, hg, Edge.make]
  · by_cases hf : pl.isPointInFrontOf e.vertex1.point
    · simp [Edge.setVertexInFrontOfCamera, hg, hf, Edge.make]
    · simp [Edge.setVertexInFrontOfCamera, hg, hf, Edge.make]

/-- Claim C6: with the camera at `(0,-1,0)`, no rotation, focal length 3,
view plane 3.2 by 1.8, expanding ratio 64 and raster 204.8 by 115.2, the
vertex `(0,3,0)` projects through the full pipeline to the screen pixel
`(102.4, 57.6)` exactly (hence within `1e-6`). -/
theorem c6_end_to_end_projection :
    (Camera.mk ⟨0, -1, 0⟩ 0 0 3 3.2 1.8 204.8 115.2 64).getToDrawVertex
      (Vertex.make 0 3 0 0) = some (102.4, 57.6) := by
  simp only [Camera.getToDrawVertex, Camera.getProjectedVertex, Camera.getConvertedVertex,
    Camera.plane, Camera.focus, Camera.normalVector, Vector.rotate_zero,
    getPlaneFromVectorAndPoint, Plane.isPointInFrontOf, Plane.valueAt,
    getVectorFrom2Points, HalfLine.make, HalfLine.isOnIntersectionWithPlane,
    HalfLine.getIntersectionWithPlane, getIntersectionFromLineAndPlane,
    HalfLine.isPointInRange, sign, Vertex.make, Point.move, sinD, cosD]
  norm_num

lemma not_in_box {a v t : ℝ} (hv : v ≠ 0) (ht : t < 0 ∨ 1 < t) :
    ¬ (min a (a + v) ≤ a + t * v ∧ a + t * v ≤ max a (a + v)) := by
  rcases lt_or_gt_of_ne hv with hneg | hpos
  · rcases ht with ht | ht
    · rintro ⟨-, hle⟩
      rw [max_eq_left (by linarith)] at hle
      nlinarith
    · rintro ⟨hge, -⟩
      rw [min_eq_right (by linarith)] at hge
      nlinarith
  · rcases ht with ht | ht
    · rintro ⟨hge, -⟩
      rw [min_eq_left (by linarith)] at hge
      nlinarith
    · rintro ⟨-, hle⟩
      rw [max_eq_right (by linarith)] at hle
      nlinarith

lemma denom_eq_value_difference (pl : Plane) (p1 p2 : Point) :
    pl.a * (getVectorFrom2Points p1 p2).x + pl.b * (getVectorFrom2Points p1 p2).y +
      pl.c * (getVectorFrom2Points p1 p2).z = pl.valueAt p2 - pl.valueAt p1 := by
  simp [getVectorFrom2Points, Plane.valueAt]; ring

lemma not_in_box' {p q t : ℝ} (hne : q - p ≠ 0) (ht : t < 0 ∨ 1 < t) :
    ¬ (min p q ≤ p + t * (q - p) ∧ p + t * (q - p) ≤ max p q) := by
  have h := not_in_box (a := p) (v := q - p) hne ht
  rwa [show p + (q - p) = q by ring] at h


/-- Claim C7: when the line-plane intersection does not exist or falls outside
the endpoints' bounding box, `setVertexInFrontOfCamera` leaves the edge
unchanged (same coordinates and identities); in particular an edge with both
endpoints strictly in front of the plane has no valid intersection, hence is
returned unchanged. -/
theorem c7_no_valid_intersection_leaves_edge_unchanged
    (x1 y1 z1 x2 y2 z2 : ℝ) (i1 i2 : ℤ) (pl : Plane) :
    ((Edge.make (Vertex.make x1 y1 z1 i1) (Vertex.make x2 y2 z2 i2)).getIntersectionWithPlane
        pl = none →
      ((Edge.make (Vertex.make x1 y1 z1 i1) (Vertex.make x2 y2 z2 i2)).setVertexInFrontOfCamera
          pl).1 = Edge.make (Vertex.make x1 y1 z1 i1) (Vertex.make x2 y2 z2 i2) ∧
      ((Edge.make (Vertex.make x1 y1 z1 i1) (Vertex.make x2 y2 z2 i2)).setVertexInFrontOfCamera
          pl).2.vertex1 = Vertex.make x1 y1 z1 i1 ∧
      ((Edge.make (Vertex.make x1 y1 z1 i1) (Vertex.make x2 y2 z2 i2)).setVertexInFrontOfCamera
          pl).2.vertex2 = Vertex.make x2 y2 z2 i2) ∧
    (pl.isPointInFrontOf (Vertex.make x1 y1 z1 i1).point →
      pl.isPointInFrontOf (Vertex.make x2 y2 z2 i2).point →
      (Edge.make (Vertex.make x1 y1 z1 i1) (Vertex.make x2 y2 z2 i2)).getIntersectionWithPlane
        pl = none) := by
  constructor
  · intro h
    simp only [Edge.setVertexInFrontOfCamera, h]
    simp [Edge.make]
  · intro ha hb
    have ha' : 0 < pl.a * x1 + pl.b * y1 + pl.c * z1 + pl.d := by
      simpa [Plane.isPointInFrontOf, Plane.valueAt, Vertex.make] using ha
    have hb' : 0 < pl.a * x2 + pl.b * y2 + pl.c * z2 + pl.d := by
      simpa [Plane.isPointInFrontOf, Plane.valueAt, Vertex.make] using hb
    have hline : (Edge.make (Vertex.make x1 y1 z1 i1) (Vertex.make x2 y2 z2 i2)).line =
        ⟨⟨x1, y1, z1⟩, ⟨x2 - x1, y2 - y1, z2 - z1⟩⟩ := by
      simp [Edge.make, Vertex.make, getVectorFrom2Points]
    by_cases hd : pl.a * (x2 - x1) + pl.b * (y2 - y1) + pl.c * (z2 - z1) = 0
    · have hg : getIntersectionFromLineAndPlane
          (Line.mk ⟨x1, y1, z1⟩ ⟨x2 - x1, y2 - y1, z2 - z1⟩) pl = none := by
        simp [getIntersectionFromLineAndPlane, hd]
      simp only [Edge.getIntersectionWithPlane, hline, hg]
    · have hg : getIntersectionFromLineAndPlane
          (Line.mk ⟨x1, y1, z1⟩ ⟨x2 - x1, y2 - y1, z2 - z1⟩) pl =
          some ⟨x1 + (-(pl.valueAt ⟨x1, y1, z1⟩) /
              (pl.a * (x2 - x1) + pl.b * (y2 - y1) + pl.c * (z2 - z1))) * (x2 - x1),
            y1 + (-(pl.valueAt ⟨x1, y1, z1⟩) /
              (pl.a * (x2 - x1) + pl.b * (y2 - y1) + pl.c * (z2 - z1))) * (y2 - y1),
            z1 + (-(pl.valueAt ⟨x1, y1, z1⟩) /
              (pl.a * (x2 - x1) + pl.b * (y2 - y1) + pl.c * (z2 - z1))) * (z2 - z1)⟩ := by
        simp only [getIntersectionFromLineAndPlane]
        rw [if_neg hd]
      have hAv : pl.valueAt ⟨x1, y1, z1⟩ = pl.a * x1 + pl.b * y1 + pl.c * z1 + pl.d := by
        simp [Plane.valueAt]
      have hdenom : pl.a * (x2 - x1) + pl.b * (y2 - y1) + pl.c * (z2 - z1) =
          (pl.a * x2 + pl.b * y2 + pl.c * z2 + pl.d) -
          (pl.a * x1 + pl.b * y1 + pl.c * z1 + pl.d) := by ring
      have htv : -(pl.valueAt ⟨x1, y1, z1⟩) /
          (pl.a * (x2 - x1) + pl.b * (y2 - y1) + pl.c * (z2 - z1)) < 0 ∨
          1 < -(pl.valueAt ⟨x1, y1, z1⟩) /
          (pl.a * (x2 - x1) + pl.b * (y2 - y1) + pl.c * (z2 - z1)) := by
        rcases lt_or_gt_of_ne hd with hlt | hgt
        · right
          rw [hAv, hdenom, show (pl.a * x2 + pl.b * y2 + pl.c * z2 + pl.d) -
              (pl.a * x1 + pl.b * y1 + pl.c * z1 + pl.d) =
              -((pl.a * x1 + pl.b * y1 + pl.c * z1 + pl.d) -
                (pl.a * x2 + pl.b * y2 + pl.c * z2 + pl.d)) by ring,
            div_neg, neg_div, neg_neg]
          rw [hdenom] at hlt
          rw [one_lt_div (by linarith)]
          linarith
        · left
          rw [hAv]
          rw [hdenom] at hgt ⊢
          apply div_neg_of_neg_of_pos
          · linarith
          · linarith
      have hvne : x2 - x1 ≠ 0 ∨ y2 - y1 ≠ 0 ∨ z2 - z1 ≠ 0 := by
        by_contra hall
        push_neg at hall
        obtain ⟨hx, hy, hz⟩ := hall
        apply hd
        rw [hx, hy, hz]
        ring
      have hnr : ¬ (Edge.make (Vertex.make x1 y1 z1 i1)
          (Vertex.make x2 y2 z2 i2)).isPointInRange
          ⟨x1 + (-(pl.valueAt ⟨x1, y1, z1⟩) /
              (pl.a * (x2 - x1) + pl.b * (y2 - y1) + pl.c * (z2 - z1))) * (x2 - x1),
            y1 + (-(pl.valueAt ⟨x1, y1, z1⟩) /
              (pl.a * (x2 - x1) + pl.b * (y2 - y1) + pl.c * (z2 - z1))) * (y2 - y1),
            z1 + (-(pl.valueAt ⟨x1, y1, z1⟩) /
              (pl.a * (x2 - x1) + pl.b * (y2 - y1) + pl.c * (z2 - z1))) * (z2 - z1)⟩ := by
        simp only [Edge.isPointInRange, Edge.make, Vertex.make]
        rintro ⟨r1, r2, r3, r4, r5, r6⟩
        rcases hvne with h | h | h
        · exact not_in_box' h htv ⟨r1, r2⟩
        · exact not_in_box' h htv ⟨r3, r4⟩
        · exact not_in_box' h htv ⟨r5, r6⟩
      simp only [Edge.getIntersectionWithPlane, hline, hg]
      rw [if_neg hnr]

lemma Edge.make_vertex1 (v1 v2 : Vertex) : (Edge.make v1 v2).vertex1 = v1 := rfl

lemma Edge.make_vertex2 (v1 v2 : Vertex) : (Edge.make v1 v2).vertex2 = v2 := rfl

lemma Edge.make_vector (v1 v2 : Vertex) :
    (Edge.make v1 v2).vector = getVectorFrom2Points v1.point v2.point := rfl

lemma Vertex.make_point (x y z : ℝ) (i : ℤ) : (Vertex.make x y z i).point = ⟨x, y, z⟩ := rfl

lemma Vertex.make_i (x y z : ℝ) (i : ℤ) : (Vertex.make x y z i).i = i := rfl

/-- Claim C1: for an edge with one endpoint strictly in front of the plane and
the other strictly behind, whose line-plane intersection passes the bounding
box test, `setVertexInFrontOfCamera` returns an edge carrying the same two
identity indices whose endpoints are both in front of the plane. -/
theorem c1_straddling_edge_clipped_in_front
    (x1 y1 z1 x2 y2 z2 : ℝ) (i1 i2 : ℤ) (pl : Plane) (ipt : Point)
    (hstraddle : (0 < pl.valueAt ⟨x1, y1, z1⟩ ∧ pl.valueAt ⟨x2, y2, z2⟩ < 0) ∨
      (pl.valueAt ⟨x1, y1, z1⟩ < 0 ∧ 0 < pl.valueAt ⟨x2, y2, z2⟩))
    (hint : (Edge.make (Vertex.make x1 y1 z1 i1)
      (Vertex.make x2 y2 z2 i2)).getIntersectionWithPlane pl = some ipt) :
    ((Edge.make (Vertex.make x1 y1 z1 i1) (Vertex.make x2 y2 z2 i2)).setVertexInFrontOfCamera
      pl).2.vertex1.i = i1 ∧
    ((Edge.make (Vertex.make x1 y1 z1 i1) (Vertex.make x2 y2 z2 i2)).setVertexInFrontOfCamera
      pl).2.vertex2.i = i2 ∧
    pl.isPointInFrontOf ((Edge.make (Vertex.make x1 y1 z1 i1)
      (Vertex.make x2 y2 z2 i2)).setVertexInFrontOfCamera pl).2.vertex1.point ∧
    pl.isPointInFrontOf ((Edge.make (Vertex.make x1 y1 z1 i1)
      (Vertex.make x2 y2 z2 i2)).setVertexInFrontOfCamera pl).2.vertex2.point := by
  obtain ⟨hg, -⟩ := Edge.getIntersectionWithPlane_some hint
  have hz0 : pl.valueAt ipt = 0 := valueAt_intersection_eq_zero hg
  have hBA : pl.a * (x2 - x1) + pl.b * (y2 - y1) + pl.c * (z2 - z1) =
      pl.valueAt ⟨x2, y2, z2⟩ - pl.valueAt ⟨x1, y1, z1⟩ := by
    simp [Plane.valueAt]; ring
  have hBAne : pl.valueAt ⟨x2, y2, z2⟩ - pl.valueAt ⟨x1, y1, z1⟩ ≠ 0 := by
    intro hEq
    have h0 := sub_eq_zero.mp hEq
    rcases hstraddle with ⟨hA, hB⟩ | ⟨hA, hB⟩ <;> rw [h0] at hB <;> linarith
  have hvne : x2 - x1 ≠ 0 ∨ y2 - y1 ≠ 0 ∨ z2 - z1 ≠ 0 := by
    by_contra hall
    push_neg at hall
    obtain ⟨hx, hy, hz⟩ := hall
    apply hBAne
    rw [← hBA, hx, hy, hz]
    ring
  have hlen : 0 < Vector.length ⟨x2 - x1, y2 - y1, z2 - z1⟩ := Vector.length_pos hvne
  rcases hstraddle with ⟨hA, hB⟩ | ⟨hA, hB⟩
  · have hf : pl.isPointInFrontOf (⟨x1, y1, z1⟩ : Point) := hA
    simp only [Edge.setVertexInFrontOfCamera, hint, Edge.make_vertex1, Edge.make_vertex2,
      Edge.make_vector, Vertex.make_point, Vertex.make_i, getVectorFrom2Points]
    rw [if_pos hf]
    simp only [Edge.make_vertex1, Edge.make_vertex2, Vertex.make_point, Vertex.make_i]
    refine ⟨trivial, trivial, hf, ?_⟩
    show 0 < pl.valueAt
      (ipt.move ((Vector.mk (x2 - x1) (y2 - y1) (z2 - z1)).changeLength (-0.0001)))
    rw [Plane.valueAt_move, hz0, zero_add]
    have hw : pl.a * ((Vector.mk (x2 - x1) (y2 - y1) (z2 - z1)).changeLength (-0.0001)).x +
        pl.b * ((Vector.mk (x2 - x1) (y2 - y1) (z2 - z1)).changeLength (-0.0001)).y +
        pl.c * ((Vector.mk (x2 - x1) (y2 - y1) (z2 - z1)).changeLength (-0.0001)).z =
        ((-0.0001 : ℝ) / Vector.length ⟨x2 - x1, y2 - y1, z2 - z1⟩) *
          (pl.valueAt ⟨x2, y2, z2⟩ - pl.valueAt ⟨x1, y1, z1⟩) := by
      rw [← hBA]
      simp only [Vector.changeLength]
      ring
    rw [hw]
    apply mul_pos_of_neg_of_neg
    · apply div_neg_of_neg_of_pos
      · norm_num
      · exact hlen
    · linarith
  · have hf : ¬ pl.isPointInFrontOf (⟨x1, y1, z1⟩ : Point) := by
      rw [Plane.isPointInFrontOf]
      push_neg
      linarith
    simp only [Edge.setVertexInFrontOfCamera, hint, Edge.make_vertex1, Edge.make_vertex2,
      Edge.make_vector, Vertex.make_point, Vertex.make_i, getVectorFrom2Points]
    rw [if_neg hf]
    simp only [Edge.make_vertex1, Edge.make_vertex2, Vertex.make_point, Vertex.make_i]
    refine ⟨trivial, trivial, ?_, hB⟩
    show 0 < pl.valueAt
      (ipt.move ((Vector.mk (x2 - x1) (y2 - y1) (z2 - z1)).changeLength 0.0001))
    rw [Plane.valueAt_move, hz0, zero_add]
    have hw : pl.a * ((Vector.mk (x2 - x1) (y2 - y1) (z2 - z1)).changeLength 0.0001).x +
        pl.b * ((Vector.mk (x2 - x1) (y2 - y1) (z2 - z1)).changeLength 0.0001).y +
        pl.c * ((Vector.mk (x2 - x1) (y2 - y1) (z2 - z1)).changeLength 0.0001).z =
        ((0.0001 : ℝ) / Vector.length ⟨x2 - x1, y2 - y1, z2 - z1⟩) *
          (pl.valueAt ⟨x2, y2, z2⟩ - pl.valueAt ⟨x1, y1, z1⟩) := by
      rw [← hBA]
      simp only [Vector.changeLength]
      ring
    rw [hw]
    apply mul_pos
    · apply div_pos
      · norm_num
      · exact hlen
    · linarith

/-- Witness for C1: the edge from `(0,1,0)` (in front of the plane `y = 0`)
to `(0,-3,0)` (behind it) is clipped and both returned endpoints are in
front. -/
theorem c1_straddling_edge_clipped_in_front_witness :
    ((0 : ℝ) < (Plane.mk 0 1 0 0).valueAt ⟨0, 1, 0⟩ ∧
      (Plane.mk 0 1 0 0).valueAt ⟨0, -3, 0⟩ < 0) ∧
    (Edge.make (Vertex.make 0 1 0 0) (Vertex.make 0 (-3) 0 1)).getIntersectionWithPlane
      (Plane.mk 0 1 0 0) = some ⟨0, 0, 0⟩ ∧
    (Plane.mk 0 1 0 0).isPointInFrontOf
      ((Edge.make (Vertex.make 0 1 0 0) (Vertex.make 0 (-3) 0 1)).setVertexInFrontOfCamera
        (Plane.mk 0 1 0 0)).2.vertex1.point ∧
    (Plane.mk 0 1 0 0).isPointInFrontOf
      ((Edge.make (Vertex.make 0 1 0 0) (Vertex.make 0 (-3) 0 1)).setVertexInFrontOfCamera
        (Plane.mk 0 1 0 0)).2.vertex2.point := by
  have hside : (0 : ℝ) < (Plane.mk 0 1 0 0).valueAt ⟨0, 1, 0⟩ ∧
      (Plane.mk 0 1 0 0).valueAt ⟨0, -3, 0⟩ < 0 := by
    norm_num [Plane.valueAt]
  have hint : (Edge.make (Vertex.make 0 1 0 0) (Vertex.make 0 (-3) 0 1)).getIntersectionWithPlane
      (Plane.mk 0 1 0 0) = some ⟨0, 0, 0⟩ := by
    simp only [Edge.getIntersectionWithPlane, Edge.make, Vertex.make, getVectorFrom2Points,
      getIntersectionFromLineAndPlane, Plane.valueAt, Edge.isPointInRange]
    norm_num [min_def, max_def]
  have h := c1_straddling_edge_clipped_in_front 0 1 0 0 (-3) 0 0 1
    (Plane.mk 0 1 0 0) ⟨0, 0, 0⟩ (Or.inl hside) hint
  exact ⟨hside, hint, h.2.2.1, h.2.2.2⟩

/-- Witness for C7: the edge from `(0,1,0)` to `(0,2,0)`, fully in front of
the plane `y = 0`, has no valid intersection and is returned unchanged. -/
theorem c7_no_valid_intersection_leaves_edge_unchanged_witness :
    (Plane.mk 0 1 0 0).isPointInFrontOf (Vertex.make 0 1 0 0).point ∧
    (Plane.mk 0 1 0 0).isPointInFrontOf (Vertex.make 0 2 0 1).point ∧
    (Edge.make (Vertex.make 0 1 0 0) (Vertex.make 0 2 0 1)).getIntersectionWithPlane
      (Plane.mk 0 1 0 0) = none ∧
    ((Edge.make (Vertex.make 0 1 0 0) (Vertex.make 0 2 0 1)).setVertexInFrontOfCamera
      (Plane.mk 0 1 0 0)).1 = Edge.make (Vertex.make 0 1 0 0) (Vertex.make 0 2 0 1) := by
  have ha : (Plane.mk 0 1 0 0).isPointInFrontOf (Vertex.make 0 1 0 0).point := by
    norm_num [Plane.isPointInFrontOf, Plane.valueAt, Vertex.make]
  have hb : (Plane.mk 0 1 0 0).isPointInFrontOf (Vertex.make 0 2 0 1).point := by
    norm_num [Plane.isPointInFrontOf, Plane.valueAt, Vertex.make]
  have hnone := (c7_no_valid_intersection_leaves_edge_unchanged 0 1 0 0 2 0 0 1
    (Plane.mk 0 1 0 0)).2 ha hb
  exact ⟨ha, hb, hnone,
    ((c7_no_valid_intersection_leaves_edge_unchanged 0 1 0 0 2 0 0 1
      (Plane.mk 0 1 0 0)).1 hnone).1⟩

/-- Claim C8: for a point on a face's plane that decomposes as
`vertex1 + s vector1 + t vector2` (with the modelled 2-by-2 system
nondegenerate), the containment test accepts exactly when `s >= 0`, `t >= 0`
and `s + t <= 1`; and the ray-face query returns null whenever the ray/plane
intersection is out of range or the containment test fails. -/
theorem c8_barycentric_containment_test :
    (∀ (f : Face) (p : Point) (s t : ℝ),
      f.vector1.x * f.vector2.y - f.vector2.x * f.vector1.y ≠ 0 →
      getVectorFrom2Points f.vertex1.point p =
        ⟨s * f.vector1.x + t * f.vector2.x, s * f.vector1.y + t * f.vector2.y,
          s * f.vector1.z + t * f.vector2.z⟩ →
      (f.isPointOnFace p ↔ (0 ≤ s ∧ 0 ≤ t ∧ s + t ≤ 1))) ∧
    (∀ (r : EdgeOrHalfLine) (f : Face),
      r.getIntersectionWithPlane f.plane = none →
      getIntersectionEdgeOrHalfLineAndFace r f = none) ∧
    (∀ (r : EdgeOrHalfLine) (f : Face) (i : Point),
      r.getIntersectionWithPlane f.plane = some i → ¬ f.isPointOnFace i →
      getIntersectionEdgeOrHalfLineAndFace r f = none) := by
  refine ⟨?_, ?_, ?_⟩
  · intro f p s t hdet hdecomp
    have hx : p.x - f.vertex1.point.x = s * f.vector1.x + t * f.vector2.x := by
      have := congrArg Vector.x hdecomp
      simpa [getVectorFrom2Points] using this
    have hy : p.y - f.vertex1.point.y = s * f.vector1.y + t * f.vector2.y := by
      have := congrArg Vector.y hdecomp
      simpa [getVectorFrom2Points] using this
    have hs : (p.x - f.vertex1.point.x) * f.vector2.y -
        f.vector2.x * (p.y - f.vertex1.point.y) =
        s * (f.vector1.x * f.vector2.y - f.vector2.x * f.vector1.y) := by
      rw [hx, hy]; ring
    have ht : f.vector1.x * (p.y - f.vertex1.point.y) -
        (p.x - f.vertex1.point.x) * f.vector1.y =
        t * (f.vector1.x * f.vector2.y - f.vector2.x * f.vector1.y) := by
      rw [hx, hy]; ring
    unfold Face.isPointOnFace getSTFrom3Vectors
    simp only [getVectorFrom2Points]
    rw [hs, ht, mul_div_assoc, div_self hdet, mul_one, mul_div_assoc, div_self hdet, mul_one]
  · intro r f h
    simp [getIntersectionEdgeOrHalfLineAndFace, h]
  · intro r f i h hnot
    simp only [getIntersectionEdgeOrHalfLineAndFace, h]
    rw [if_neg hnot]

/-- Witness for C8: the axis-aligned triangle in the plane `z = 1` with the
point `(0,0,1)` decomposing with coefficients `s = t = 1/4`. -/
theorem c8_barycentric_containment_test_witness :
    ((Face.make (Vertex.make (-1) (-1) 1 0) (Vertex.make 3 (-1) 1 1)
        (Vertex.make (-1) 3 1 2)).vector1.x *
      (Face.make (Vertex.make (-1) (-1) 1 0) (Vertex.make 3 (-1) 1 1)
        (Vertex.make (-1) 3 1 2)).vector2.y -
      (Face.make (Vertex.make (-1) (-1) 1 0) (Vertex.make 3 (-1) 1 1)
        (Vertex.make (-1) 3 1 2)).vector2.x *
      (Face.make (Vertex.make (-1) (-1) 1 0) (Vertex.make 3 (-1) 1 1)
        (Vertex.make (-1) 3 1 2)).vector1.y ≠ 0) ∧
    ((Face.make (Vertex.make (-1) (-1) 1 0) (Vertex.make 3 (-1) 1 1)
        (Vertex.make (-1) 3 1 2)).isPointOnFace ⟨0, 0, 1⟩ ↔
      (0 ≤ (1 / 4 : ℝ) ∧ 0 ≤ (1 / 4 : ℝ) ∧ (1 / 4 : ℝ) + 1 / 4 ≤ 1)) := by
  have hdet : (Face.make (Vertex.make (-1) (-1) 1 0) (Vertex.make 3 (-1) 1 1)
      (Vertex.make (-1) 3 1 2)).vector1.x *
      (Face.make (Vertex.make (-1) (-1) 1 0) (Vertex.make 3 (-1) 1 1)
        (Vertex.make (-1) 3 1 2)).vector2.y -
      (Face.make (Vertex.make (-1) (-1) 1 0) (Vertex.make 3 (-1) 1 1)
        (Vertex.make (-1) 3 1 2)).vector2.x *
      (Face.make (Vertex.make (-1) (-1) 1 0) (Vertex.make 3 (-1) 1 1)
        (Vertex.make (-1) 3 1 2)).vector1.y ≠ 0 := by
    norm_num [Face.make, Vertex.make, getVectorFrom2Points]
  have hdecomp : getVectorFrom2Points (Face.make (Vertex.make (-1) (-1) 1 0)
      (Vertex.make 3 (-1) 1 1) (Vertex.make (-1) 3 1 2)).vertex1.point ⟨0, 0, 1⟩ =
      ⟨(1 / 4 : ℝ) * (Face.make (Vertex.make (-1) (-1) 1 0) (Vertex.make 3 (-1) 1 1)
          (Vertex.make (-1) 3 1 2)).vector1.x +
        (1 / 4 : ℝ) * (Face.make (Vertex.make (-1) (-1) 1 0) (Vertex.make 3 (-1) 1 1)
          (Vertex.make (-1) 3 1 2)).vector2.x,
        (1 / 4 : ℝ) * (Face.make (Vertex.make (-1) (-1) 1 0) (Vertex.make 3 (-1) 1 1)
          (Vertex.make (-1) 3 1 2)).vector1.y +
        (1 / 4 : ℝ) * (Face.make (Vertex.make (-1) (-1) 1 0) (Vertex.make 3 (-1) 1 1)
          (Vertex.make (-1) 3 1 2)).vector2.y,
        (1 / 4 : ℝ) * (Face.make (Vertex.make (-1) (-1) 1 0) (Vertex.make 3 (-1) 1 1)
          (Vertex.make (-1) 3 1 2)).vector1.z +
        (1 / 4 : ℝ) * (Face.make (Vertex.make (-1) (-1) 1 0) (Vertex.make 3 (-1) 1 1)
          (Vertex.make (-1) 3 1 2)).vector2.z⟩ := by
    simp only [Face.make, Vertex.make, getVectorFrom2Points]
    norm_num
  exact ⟨hdet, c8_barycentric_containment_test.1 _ _ (1 / 4) (1 / 4) hdet hdecomp⟩

lemma insertHit_perm (x : Hit) (l : List Hit) : List.Perm (insertHit x l) (x :: l) := by
  induction l with
  | nil => simp [insertHit]
  | cons y ys ih =>
    by_cases h : y.length ≤ x.length
    · simp only [insertHit, if_pos h]
      exact (ih.cons y).trans (List.Perm.swap x y ys)
    · simp only [insertHit, if_neg h]
      exact List.Perm.refl _

lemma insertHit_sorted (x : Hit) (l : List Hit)
    (h : l.Sorted (fun a b => a.length ≤ b.length)) :
    (insertHit x l).Sorted (fun a b => a.length ≤ b.length) := by
  induction l with
  | nil => simp [insertHit]
  | cons y ys ih =>
    rw [List.sorted_cons] at h
    obtain ⟨hy, hys⟩ := h
    by_cases hc : y.length ≤ x.length
    · simp only [insertHit, if_pos hc]
      rw [List.sorted_cons]
      refine ⟨?_, ih hys⟩
      intro b hb
      rcases List.mem_cons.mp ((insertHit_perm x ys).mem_iff.mp hb) with rfl | hb'
      · exact hc
      · exact hy b hb'
    · simp only [insertHit, if_neg hc]
      push_neg at hc
      rw [List.sorted_cons]
      refine ⟨?_, List.sorted_cons.mpr ⟨hy, hys⟩⟩
      intro b hb
      rcases List.mem_cons.mp hb with rfl | hb'
      · exact le_of_lt hc
      · exact le_trans (le_of_lt hc) (hy b hb')

lemma foldl_insertHit_sorted (l acc : List Hit)
    (ha : acc.Sorted (fun a b => a.length ≤ b.length)) :
    (l.foldl (fun acc x => insertHit x acc) acc).Sorted
      (fun a b => a.length ≤ b.length) := by
  induction l generalizing acc with
  | nil => exact ha
  | cons x xs ih => exact ih _ (insertHit_sorted x acc ha)

lemma foldl_insertHit_perm (l acc : List Hit) :
    List.Perm (l.foldl (fun acc x => insertHit x acc) acc) (l ++ acc) := by
  induction l generalizing acc with
  | nil => simp
  | cons x xs ih =>
    refine ((ih (insertHit x acc)).trans ?_)
    refine (List.Perm.append_left xs (insertHit_perm x acc)).trans ?_
    exact List.perm_middle.trans (List.Perm.refl _)

lemma sortHits_sorted (l : List Hit) :
    (sortHits l).Sorted (fun a b => a.length ≤ b.length) :=
  foldl_insertHit_sorted l [] (by simp)

lemma sortHits_perm (l : List Hit) : List.Perm (sortHits l) l :=
  (foldl_insertHit_perm l []).trans (by simp)

/-- Claim C2 (amended): the face-list query returns a sequence sorted
non-decreasing by distance from the ray origin (ties are possible when two
faces are hit at the same distance), whose records are exactly the accepted
face hits of the list, and the result is empty when no face is hit; the
function is deterministic by construction. -/
theorem c2_query_sorted_and_complete (r : EdgeOrHalfLine) (faces : List Face) :
    (getIntersectionsEdgeOrHalfLineAndFaces r faces).Sorted
      (fun a b => a.length ≤ b.length) ∧
    (getIntersectionsEdgeOrHalfLineAndFaces r faces).Perm
      (faces.filterMap fun f =>
        (getIntersectionEdgeOrHalfLineAndFace r f).map fun inter =>
          ⟨f, inter, getLengthFrom2Points r.origin inter⟩) ∧
    ((∀ f ∈ faces, getIntersectionEdgeOrHalfLineAndFace r f = none) →
      getIntersectionsEdgeOrHalfLineAndFaces r faces = []) := by
  refine ⟨sortHits_sorted _, sortHits_perm _, fun hall => ?_⟩
  have hnil : (faces.filterMap fun f =>
      (getIntersectionEdgeOrHalfLineAndFace r f).map fun inter =>
        ⟨f, inter, getLengthFrom2Points r.origin inter⟩ : List Hit) = [] := by
    rw [List.filterMap_eq_nil_iff]
    intro f hf
    simp [hall f hf]
  rw [getIntersectionsEdgeOrHalfLineAndFaces, hnil]
  simp [sortHits]

/-- Witness for C2 at an empty face list: no face is hit and the query
returns the empty sequence. -/
theorem c2_query_sorted_and_complete_witness :
    (∀ f ∈ ([] : List Face), getIntersectionEdgeOrHalfLineAndFace
      (EdgeOrHalfLine.halfLine (HalfLine.make ⟨0, 0, 0⟩ ⟨0, 0, 1⟩)) f = none) ∧
    getIntersectionsEdgeOrHalfLineAndFaces
      (EdgeOrHalfLine.halfLine (HalfLine.make ⟨0, 0, 0⟩ ⟨0, 0, 1⟩)) [] = [] := by
  refine ⟨by simp, ?_⟩
  exact (c2_query_sorted_and_complete
    (EdgeOrHalfLine.halfLine (HalfLine.make ⟨0, 0, 0⟩ ⟨0, 0, 1⟩)) []).2.2 (by simp)

/-- A concrete segment ray used to exhibit an equal-distance tie in the
face-list query. -/
def edgeC2 : Edge := Edge.make (Vertex.make 0 0 0 0) (Vertex.make 0 0 2 1)

/-- A triangle in the plane `z = 1` containing the point `(0,0,1)`. -/
def faceC2a : Face :=
  Face.make (Vertex.make (-1) (-1) 1 0) (Vertex.make 3 (-1) 1 1) (Vertex.make (-1) 3 1 2)

/-- A second, distinct triangle in the plane `z = 1` containing `(0,0,1)`. -/
def faceC2b : Face :=
  Face.make (Vertex.make 1 1 1 3) (Vertex.make (-3) 1 1 4) (Vertex.make 1 (-3) 1 5)

/-- Claim C2 counterexample: two distinct coplanar triangles both hit by the
same segment at distance 1; the query's output has the lengths `[1, 1]`,
which is not strictly ascending. -/
theorem c2_strictly_ascending_counterexample :
    List.map Hit.length (getIntersectionsEdgeOrHalfLineAndFaces
      (EdgeOrHalfLine.edge edgeC2) [faceC2a, faceC2b]) = [1, 1] ∧
    ¬ (getIntersectionsEdgeOrHalfLineAndFaces (EdgeOrHalfLine.edge edgeC2)
      [faceC2a, faceC2b]).Sorted (fun a b => a.length < b.length) := by
  have hfa : getIntersectionEdgeOrHalfLineAndFace (EdgeOrHalfLine.edge edgeC2) faceC2a =
      some ⟨0, 0, 1⟩ := by
    simp only [getIntersectionEdgeOrHalfLineAndFace, EdgeOrHalfLine.getIntersectionWithPlane,
      edgeC2, faceC2a, Face.make, Edge.make, Vertex.make, getVectorFrom2Points,
      getCrossProduct, getPlaneFromVectorAndPoint, Edge.getIntersectionWithPlane,
      getIntersectionFromLineAndPlane, Plane.valueAt, Edge.isPointInRange,
      Face.isPointOnFace, getSTFrom3Vectors]
    norm_num [min_def, max_def]
  have hfb : getIntersectionEdgeOrHalfLineAndFace (EdgeOrHalfLine.edge edgeC2) faceC2b =
      some ⟨0, 0, 1⟩ := by
    simp only [getIntersectionEdgeOrHalfLineAndFace, EdgeOrHalfLine.getIntersectionWithPlane,
      edgeC2, faceC2b, Face.make, Edge.make, Vertex.make, getVectorFrom2Points,
      getCrossProduct, getPlaneFromVectorAndPoint, Edge.getIntersectionWithPlane,
      getIntersectionFromLineAndPlane, Plane.valueAt, Edge.isPointInRange,
      Face.isPointOnFace, getSTFrom3Vectors]
    norm_num [min_def, max_def]
  have hlen : getLengthFrom2Points (EdgeOrHalfLine.edge edgeC2).origin
      (⟨0, 0, 1⟩ : Point) = 1 := by
    simp only [EdgeOrHalfLine.origin, edgeC2, Edge.make, Vertex.make, getLengthFrom2Points]
    norm_num
  have hq : getIntersectionsEdgeOrHalfLineAndFaces (EdgeOrHalfLine.edge edgeC2)
      [faceC2a, faceC2b] = [⟨faceC2a, ⟨0, 0, 1⟩, 1⟩, ⟨faceC2b, ⟨0, 0, 1⟩, 1⟩] := by
    rw [getIntersectionsEdgeOrHalfLineAndFaces]
    simp only [List.filterMap_cons, List.filterMap_nil, hfa, hfb, Option.map_some', hlen]
    simp [sortHits, insertHit]
  rw [hq]
  constructor
  · simp
  · intro hs
    rw [List.sorted_cons] at hs
    have h11 := hs.1 ⟨faceC2b, ⟨0, 0, 1⟩, 1⟩ (by simp)
    norm_num at h11

/-- Claim C5 (amended): in the per-edge draw path the edge is skipped exactly
when both projections are null; a segment is drawn when both are non-null;
but when exactly one projection is null the loop body fails on a null member
access instead of drawing. -/
theorem c5_draw_edge_step_cases (c : Camera) (e : Edge) :
    (c.getToDrawVertex (e.getClone.setVertexInFrontOfCamera c.plane).2.vertex1 = none ∧
      c.getToDrawVertex (e.getClone.setVertexInFrontOfCamera c.plane).2.vertex2 = none →
      c.drawEdgeStep e = DrawEdgeResult.skipped) ∧
    (∀ p1 p2 : ℝ × ℝ,
      c.getToDrawVertex (e.getClone.setVertexInFrontOfCamera c.plane).2.vertex1 = some p1 →
      c.getToDrawVertex (e.getClone.setVertexInFrontOfCamera c.plane).2.vertex2 = some p2 →
      c.drawEdgeStep e = DrawEdgeResult.drew p1.1 p1.2 p2.1 p2.2) ∧
    ((c.getToDrawVertex (e.getClone.setVertexInFrontOfCamera c.plane).2.vertex1 = none ∧
      c.getToDrawVertex (e.getClone.setVertexInFrontOfCamera c.plane).2.vertex2 ≠ none) ∨
      (c.getToDrawVertex (e.getClone.setVertexInFrontOfCamera c.plane).2.vertex1 ≠ none ∧
      c.getToDrawVertex (e.getClone.setVertexInFrontOfCamera c.plane).2.vertex2 = none) →
      c.drawEdgeStep e = DrawEdgeResult.crashed) := by
  refine ⟨?_, ?_, ?_⟩
  · rintro ⟨h1, h2⟩
    simp [Camera.drawEdgeStep, h1, h2]
  · intro p1 p2 h1 h2
    simp [Camera.drawEdgeStep, h1, h2]
  · rintro (⟨h1, h2⟩ | ⟨h1, h2⟩)
    · rcases ho : c.getToDrawVertex (e.getClone.setVertexInFrontOfCamera c.plane).2.vertex2
        with _ | p2
      · exact absurd ho h2
      · simp [Camera.drawEdgeStep, h1, ho]
    · rcases ho : c.getToDrawVertex (e.getClone.setVertexInFrontOfCamera c.plane).2.vertex1
        with _ | p1
      · exact absurd ho h1
      · simp [Camera.drawEdgeStep, ho, h2]

/-- A camera at the origin looking along positive y with focal length 1. -/
def cameraC5 : Camera := ⟨⟨0, 0, 0⟩, 0, 0, 1, 2, 2, 2, 2, 1⟩

/-- An edge from a point strictly behind the camera plane to a point exactly
on it. -/
def edgeC5 : Edge := Edge.make (Vertex.make 0 (-2) 1 0) (Vertex.make 0 0 1 1)

/-- An edge fully behind the camera plane. -/
def edgeC5skip : Edge := Edge.make (Vertex.make 0 (-2) 0 0) (Vertex.make 0 (-3) 0 1)

/-- Claim C5 counterexample: for an edge from strictly behind the camera plane
to a point exactly on it, clipping moves only the behind endpoint in front,
leaving exactly one null projection, and the loop body fails (null member
access) instead of drawing a segment. -/
theorem c5_one_null_projection_crashes_counterexample :
    cameraC5.drawEdgeStep edgeC5 = DrawEdgeResult.crashed := by
  have h4 : Real.sqrt 4 = 2 := by
    rw [show (4 : ℝ) = 2 ^ 2 by norm_num]
    exact Real.sqrt_sq (by norm_num)
  have hplane : cameraC5.plane = ⟨0, 1, 0, 0⟩ := by
    simp only [cameraC5, Camera.plane, Camera.normalVector, Vector.rotate_zero,
      getPlaneFromVectorAndPoint]
    norm_num
  have hclone : edgeC5.getClone = edgeC5 := rfl
  have hset : (edgeC5.setVertexInFrontOfCamera (⟨0, 1, 0, 0⟩ : Plane)).2 =
      Edge.make (Vertex.make 0 0.0001 1 0) (Vertex.make 0 0 1 1) := by
    simp only [edgeC5, Edge.setVertexInFrontOfCamera, Edge.getIntersectionWithPlane,
      Edge.make, Vertex.make, getVectorFrom2Points, getIntersectionFromLineAndPlane,
      Plane.valueAt, Edge.isPointInRange, Plane.isPointInFrontOf, Point.move,
      Vector.changeLength, Vector.length]
    norm_num [h4, min_def, max_def]
  have htd1 : cameraC5.getToDrawVertex (Vertex.make 0 0.0001 1 0) =
      some (1, 1 / 10001) := by
    simp only [cameraC5, Camera.getToDrawVertex, Camera.getProjectedVertex,
      Camera.getConvertedVertex, Camera.plane, Camera.focus, Camera.normalVector,
      Vector.rotate_zero, getPlaneFromVectorAndPoint, Plane.isPointInFrontOf,
      Plane.valueAt, getVectorFrom2Points, HalfLine.make,
      HalfLine.isOnIntersectionWithPlane, HalfLine.getIntersectionWithPlane,
      getIntersectionFromLineAndPlane, HalfLine.isPointInRange, sign, Vertex.make,
      Point.move, sinD, cosD]
    norm_num
  have htd2 : cameraC5.getToDrawVertex (Vertex.make 0 0 1 1) = none := by
    simp only [cameraC5, Camera.getToDrawVertex, Camera.getProjectedVertex,
      Camera.plane, Camera.normalVector, Vector.rotate_zero,
      getPlaneFromVectorAndPoint, Plane.isPointInFrontOf, Plane.valueAt, Vertex.make]
    norm_num
  simp only [Camera.drawEdgeStep, hclone, hplane, hset, Edge.make_vertex1,
    Edge.make_vertex2, htd1, htd2]

/-- Witness for C5: an edge fully behind the camera plane has both projections
null and its draw step is skipped. -/
theorem c5_draw_edge_step_cases_witness :
    (cameraC5.getToDrawVertex
        (edgeC5skip.getClone.setVertexInFrontOfCamera cameraC5.plane).2.vertex1 = none ∧
      cameraC5.getToDrawVertex
        (edgeC5skip.getClone.setVertexInFrontOfCamera cameraC5.plane).2.vertex2 = none) ∧
    cameraC5.drawEdgeStep edgeC5skip = DrawEdgeResult.skipped := by
  have hplane : cameraC5.plane = ⟨0, 1, 0, 0⟩ := by
    simp only [cameraC5, Camera.plane, Camera.normalVector, Vector.rotate_zero,
      getPlaneFromVectorAndPoint]
    norm_num
  have hclone : edgeC5skip.getClone = edgeC5skip := rfl
  have hset : (edgeC5skip.setVertexInFrontOfCamera (⟨0, 1, 0, 0⟩ : Plane)).2 =
      Edge.make (Vertex.make 0 (-2) 0 0) (Vertex.make 0 (-3) 0 1) := by
    simp only [edgeC5skip, Edge.setVertexInFrontOfCamera, Edge.getIntersectionWithPlane,
      Edge.make, Vertex.make, getVectorFrom2Points, getIntersectionFromLineAndPlane,
      Plane.valueAt, Edge.isPointInRange, Plane.isPointInFrontOf, Point.move,
      Vector.changeLength, Vector.length]
    norm_num [min_def, max_def]
  have htd1 : cameraC5.getToDrawVertex (Vertex.make 0 (-2) 0 0) = none := by
    simp only [cameraC5, Camera.getToDrawVertex, Camera.getProjectedVertex,
      Camera.plane, Camera.normalVector, Vector.rotate_zero,
      getPlaneFromVectorAndPoint, Plane.isPointInFrontOf, Plane.valueAt, Vertex.make]
    norm_num
  have htd2 : cameraC5.getToDrawVertex (Vertex.make 0 (-3) 0 1) = none := by
    simp only [cameraC5, Camera.getToDrawVertex, Camera.getProjectedVertex,
      Camera.plane, Camera.normalVector, Vector.rotate_zero,
      getPlaneFromVectorAndPoint, Plane.isPointInFrontOf, Plane.valueAt, Vertex.make]
    norm_num
  have h1 : cameraC5.getToDrawVertex
      (edgeC5skip.getClone.setVertexInFrontOfCamera cameraC5.plane).2.vertex1 = none := by
    rw [hclone, hplane, hset, Edge.make_vertex1]
    exact htd1
  have h2 : cameraC5.getToDrawVertex
      (edgeC5skip.getClone.setVertexInFrontOfCamera cameraC5.plane).2.vertex2 = none := by
    rw [hclone, hplane, hset, Edge.make_vertex2]
    exact htd2
  exact ⟨⟨h1, h2⟩, (c5_draw_edge_step_cases cameraC5 edgeC5skip).1 ⟨h1, h2⟩⟩

lemma storeExt_refl (s : Store) : StoreExt s s :=
  ⟨le_refl _, le_refl _, fun _ _ => rfl, fun _ _ => rfl⟩

lemma storeExt_trans {s0 s1 s2 : Store} (h01 : StoreExt s0 s1) (h12 : StoreExt s1 s2) :
    StoreExt s0 s2 := by
  obtain ⟨hv01, he01, hgv01, hge01⟩ := h01
  obtain ⟨hv12, he12, hgv12, hge12⟩ := h12
  refine ⟨le_trans hv01 hv12, le_trans he01 he12, ?_, ?_⟩
  · intro j hj
    rw [hgv12 j (lt_of_lt_of_le hj hv01), hgv01 j hj]
  · intro j hj
    rw [hge12 j (lt_of_lt_of_le hj he01), hge01 j hj]

lemma storeExt_append (s : Store) (lv : List VObj) (le' : List EObj) :
    StoreExt s ⟨s.verts ++ lv, s.edges ++ le'⟩ := by
  refine ⟨by simp, by simp, ?_, ?_⟩
  · intro j hj
    exact List.getElem?_append_left hj
  · intro j hj
    exact List.getElem?_append_left hj

lemma storeExt_mutStep (s0 s : Store) (w : VObj) (eid : Nat) (x : EObj)
    (hext : StoreExt s0 s) (hid : s0.edges.length ≤ eid) :
    StoreExt s0 ⟨s.verts ++ [w], s.edges.set eid x⟩ := by
  obtain ⟨hv, he, hgv, hge⟩ := hext
  refine ⟨by simp; omega, by simp [he], ?_, ?_⟩
  · intro j hj
    rw [List.getElem?_append_left (lt_of_lt_of_le hj hv), hgv j hj]
  · intro j hj
    rw [List.getElem?_set_ne (by omega), hge j hj]

lemma cloneVertexS_ext (s : Store) (vid : Nat) : StoreExt s (cloneVertexS s vid).1 := by
  have h := storeExt_append s [s.verts.getD vid dVObj] []
  simpa [cloneVertexS] using h

lemma cloneVertsS_ext (l : List Nat) : ∀ s : Store, StoreExt s (cloneVertsS s l) := by
  induction l with
  | nil => exact fun s => storeExt_refl s
  | cons v rest ih =>
    intro s
    exact storeExt_trans (cloneVertexS_ext s v) (ih _)

lemma cloneEdgeS_ext (s : Store) (eid : Nat) :
    StoreExt s (cloneEdgeS s eid).1 ∧ s.edges.length ≤ (cloneEdgeS s eid).2 := by
  constructor
  · simp only [cloneEdgeS, cloneVertexS, List.append_assoc, List.singleton_append,
      List.cons_append, List.nil_append]
    exact storeExt_append s _ _
  · simp [cloneEdgeS, cloneVertexS]

lemma cloneEdgesS_ext (l : List Nat) : ∀ s : Store,
    StoreExt s (cloneEdgesS s l).1 ∧ ∀ n ∈ (cloneEdgesS s l).2, s.edges.length ≤ n := by
  induction l with
  | nil => exact fun s => ⟨storeExt_refl s, by simp [cloneEdgesS]⟩
  | cons e rest ih =>
    intro s
    obtain ⟨hext1, hid1⟩ := cloneEdgeS_ext s e
    obtain ⟨hext2, hids2⟩ := ih (cloneEdgeS s e).1
    constructor
    · show StoreExt s (cloneEdgesS s (e :: rest)).1
      have hstep : (cloneEdgesS s (e :: rest)).1 = (cloneEdgesS (cloneEdgeS s e).1 rest).1 := by
        simp [cloneEdgesS]
      rw [hstep]
      exact storeExt_trans hext1 hext2
    · intro n hn
      have hstep : (cloneEdgesS s (e :: rest)).2 =
          (cloneEdgeS s e).2 :: (cloneEdgesS (cloneEdgeS s e).1 rest).2 := by
        simp [cloneEdgesS]
      rw [hstep] at hn
      rcases List.mem_cons.mp hn with rfl | hn'
      · exact hid1
      · exact le_trans hext1.2.1 (hids2 n hn')

lemma mutateEdgeS_ext {s0 s : Store} (pl : Plane) (eid : Nat)
    (hext : StoreExt s0 s) (hid : s0.edges.length ≤ eid) :
    StoreExt s0 (mutateEdgeS pl s eid) := by
  simp only [mutateEdgeS]
  split
  · exact hext
  · split
    · exact storeExt_mutStep s0 s _ eid _ hext hid
    · exact storeExt_mutStep s0 s _ eid _ hext hid

lemma foldl_mutateEdgeS_ext {s0 : Store} (pl : Plane) (ids : List Nat) :
    ∀ s : Store, StoreExt s0 s → (∀ n ∈ ids, s0.edges.length ≤ n) →
    StoreExt s0 (ids.foldl (mutateEdgeS pl) s) := by
  induction ids with
  | nil => exact fun s hext _ => hext
  | cons n rest ih =>
    intro s hext hids
    exact ih _ (mutateEdgeS_ext pl n hext (hids n (by simp)))
      (fun m hm => hids m (by simp [hm]))

lemma frameS_ext (pl : Plane) (vids eids : List Nat) (s : Store) :
    StoreExt s (frameS pl vids eids s) := by
  have h1 := cloneVertsS_ext vids s
  obtain ⟨h2, hids⟩ := cloneEdgesS_ext eids (cloneVertsS s vids)
  have hfold := foldl_mutateEdgeS_ext pl (cloneEdgesS (cloneVertsS s vids) eids).2
    (cloneEdgesS (cloneVertsS s vids) eids).1
    (storeExt_trans h1 h2)
    (fun n hn => le_trans h1.2.1 (hids n hn))
  simpa [frameS] using hfold

/-- Claim C9: the clipping mutations of a frame operate only on imported
clones: after any number of update/draw cycles, every canonical vertex object
and edge object in the store is unchanged (coordinates, identity indices and
endpoint references). -/
theorem c9_canonical_scene_preserved (pl : Plane) (vids eids : List Nat) (s : Store)
    (n : Nat) (hv : ∀ v ∈ vids, v < s.verts.length)
    (he : ∀ e ∈ eids, e < s.edges.length) :
    (∀ v ∈ vids, ((frameS pl vids eids)^[n] s).verts[v]? = s.verts[v]?) ∧
    (∀ e ∈ eids, ((frameS pl vids eids)^[n] s).edges[e]? = s.edges[e]?) := by
  have hext : StoreExt s ((frameS pl vids eids)^[n] s) := by
    induction n with
    | zero => exact storeExt_refl s
    | succ m ih =>
      rw [Function.iterate_succ_apply']
      exact storeExt_trans ih (frameS_ext pl vids eids _)
  exact ⟨fun v hv' => hext.2.2.1 v (hv v hv'),
    fun e he' => hext.2.2.2 e (he e he')⟩

/-- A two-vertex, one-edge canonical scene store. -/
def storeC9 : Store :=
  ⟨[⟨0, 1, 0, 0⟩, ⟨0, 2, 0, 1⟩], [⟨0, 1, ⟨0, 1, 0⟩⟩]⟩

/-- Witness for C9: one frame over the concrete two-vertex scene leaves the
canonical store entries untouched. -/
theorem c9_canonical_scene_preserved_witness :
    (∀ v ∈ [0, 1], v < storeC9.verts.length) ∧
    (∀ e ∈ [0], e < storeC9.edges.length) ∧
    (∀ v ∈ [0, 1], ((frameS ⟨0, 1, 0, 0⟩ [0, 1] [0])^[1] storeC9).verts[v]? =
      storeC9.verts[v]?) ∧
    (∀ e ∈ [0], ((frameS ⟨0, 1, 0, 0⟩ [0, 1] [0])^[1] storeC9).edges[e]? =
      storeC9.edges[e]?) := by
  have hv : ∀ v ∈ [0, 1], v < storeC9.verts.length := by
    intro v hv'
    rcases List.mem_cons.mp hv' with rfl | hv''
    · simp [storeC9]
    · rcases List.mem_cons.mp hv'' with rfl | hv'''
      · simp [storeC9]
      · simp at hv'''
  have he : ∀ e ∈ [0], e < storeC9.edges.length := by
    intro e he'
    rcases List.mem_cons.mp he' with rfl | he''
    · simp [storeC9]
    · simp at he''
  have h := c9_canonical_scene_preserved ⟨0, 1, 0, 0⟩ [0, 1] [0] storeC9 1 hv he
  exact ⟨hv, he, h.1, h.2⟩
